import Mathlib

/-!
# Verification of the Interface embedded runtime manager

This file embeds the runtime-manager subsystem of the Interface launcher
(roles Gamma/Delta, lock manager, runtime validator, installer state
machine, locator, retry/fallback policy) together with two functions of
the TypeScript front end (`handleSaveInstanceConfig` and the two
`formatBytes` helpers) and proves the specified properties about them.

The Rust implementation of the runtime manager is not part of the
source tree (only its documentation contracts are), so those components
are modelled from the specification, as recorded in each doc comment.
The TypeScript functions are translated directly from the source files.

JavaScript numbers are modelled as `Option ℚ`: `none` stands for a
non-finite value (`NaN`, `±Infinity`), `some q` for a finite value with
exact rational arithmetic in place of IEEE doubles.
-/

namespace RuntimeManager

/-! ## Lock Manager (spec §4.3) -/

/-- Modelled from the spec: the Lock Record persisted at the fixed
per-target path, holding `ownerProcessId` and `acquiredAt`.  The Rust
lock-manager code is not in the source tree; modelled from spec §3 and
§4.3 and `Locks y recuperación` in the embedded-Java guide. -/
structure LockRecord where
  ownerProcessId : ℕ
  acquiredAt : ℕ
deriving DecidableEq, Repr

/-- Result of an acquisition attempt. -/
inductive AcquireResult where
  | Held
  | Busy
deriving DecidableEq, Repr

/-- Modelled from the spec: the environment a lock-acquisition call
observes — the current time, the calling process id, and which process
ids belong to live processes. -/
structure LockEnv where
  now : ℕ
  selfPid : ℕ
  alive : ℕ → Bool

/-- Modelled from the spec: staleness of a Lock Record — the owner
process is not alive, or the record's age exceeds the TTL. -/
def stale (env : LockEnv) (ttl : ℕ) (r : LockRecord) : Bool :=
  !env.alive r.ownerProcessId || decide (env.now - r.acquiredAt > ttl)

/-- Modelled from the spec: `acquire(target, ttl)` (§4.3).  The state is
the Lock Record currently at the target (`none` when absent).  If
absent, a new record is written with create-if-absent semantics and
`Held` is returned.  If present and stale, the record is overwritten
(reclaimed) and `Held` is returned.  Otherwise `Busy` is returned and
the record is untouched. -/
def acquire (env : LockEnv) (st : Option LockRecord) (ttl : ℕ) :
    AcquireResult × Option LockRecord :=
  match st with
  | none => (.Held, some ⟨env.selfPid, env.now⟩)
  | some r =>
      if stale env ttl r then (.Held, some ⟨env.selfPid, env.now⟩)
      else (.Busy, some r)

/-! ## Runtime Validator (spec §4.2) -/

/-- Modelled from the spec: everything validation can observe about one
candidate executable, including vendor metadata that validation must
ignore.  `spawnOk` is false when the process cannot be spawned;
`timedOut`/`exitCode` describe the `java -version` subprocess;
`bannerMajor` is the major version parsed from the version banner
(`none` when the output is unparsable); `is64Bit` is the binary's
architecture class; `vendor` is distribution metadata. -/
structure Candidate where
  spawnOk : Bool
  timedOut : Bool
  exitCode : ℕ
  bannerMajor : Option ℕ
  is64Bit : Bool
  vendor : String
deriving DecidableEq, Repr

/-- A validation requirement: the minimum acceptable major version. -/
structure Requirement where
  minMajor : ℕ
deriving DecidableEq, Repr

/-- Result of validating one candidate executable. -/
inductive ValidationResult where
  | Usable
  | Unusable
deriving DecidableEq, Repr

/-- Modelled from the spec: `validate(executablePath, requirement)`
(§4.2).  Usable iff the process spawns, does not time out, exits zero,
produces a parsable version banner whose major is at least the
requirement's minimum, and the binary is 64-bit.  Vendor metadata is
not consulted. -/
def validate (c : Candidate) (req : Requirement) : ValidationResult :=
  if !c.spawnOk then .Unusable
  else if c.timedOut then .Unusable
  else if c.exitCode ≠ 0 then .Unusable
  else
    match c.bannerMajor with
    | none => .Unusable
    | some major =>
        if major ≥ req.minMajor && c.is64Bit then .Usable else .Unusable

/-! ## Role Resolver and role isolation (spec §4.6, docs/runtime-roles.md) -/

/-- The two runtime roles: Gamma runs the guest application (the game
JVM), Delta runs the manager's internal tooling. -/
inductive Role where
  | Gamma
  | Delta
deriving DecidableEq, Repr

/-- A guest-application (Minecraft) version, e.g. 1.20.4. -/
structure McVersion where
  major : ℕ
  minor : ℕ
  patch : ℕ
deriving DecidableEq, Repr

/-- Lexicographic order on guest-application versions, as a `Prop`. -/
def vleP (a b : McVersion) : Prop :=
  a.major < b.major ∨
    (a.major = b.major ∧
      (a.minor < b.minor ∨ (a.minor = b.minor ∧ a.patch ≤ b.patch)))

instance (a b : McVersion) : Decidable (vleP a b) := by
  unfold vleP
  infer_instance

/-- Lexicographic order on guest-application versions, as a `Bool`. -/
def vle (a b : McVersion) : Bool := decide (vleP a b)

/-- Modelled from the spec: the fixed requirement-to-major mapping kept
as a small ordered table of (upper bound of version range, major); a
version is looked up against the bounds in order, with a default major
for versions beyond every bound (design note §9). -/
def lookupMajor : List (McVersion × ℕ) → ℕ → McVersion → ℕ
  | [], dflt, _ => dflt
  | (ub, m) :: rest, dflt, v => if vle v ub then m else lookupMajor rest dflt v

/-- Modelled from the spec: Gamma's mapping table from
docs/runtime-roles.md — Minecraft `<= 1.20.4` maps to Java 17; every
later version falls through to the default major 21. -/
def gammaTable : List (McVersion × ℕ) := [(⟨1, 20, 4⟩, 17)]

/-- Modelled from the spec: the required major per role
(docs/runtime-roles.md `Resolución`): Gamma is resolved from the guest
application's declared version through the fixed table; Delta is held
at the fixed conservative constant 17. -/
def requiredMajor : Role → McVersion → ℕ
  | .Gamma, v => lookupMajor gammaTable 21 v
  | .Delta, _ => 17

/-- Modelled from the spec: the on-disk description of one installed
runtime (spec §3), written only as the final step of a successful
install. -/
structure Manifest where
  schemaVersion : ℕ
  archiveChecksum : ℕ
  executableChecksum : ℕ
  installedAt : ℕ
  sourceUrl : String
  executableRelativePath : List String
  majorVersion : ℕ
  arch64 : Bool
  identifier : String
  displayVersion : String
  permissionsApplied : Option Bool
deriving DecidableEq, Repr

/-- Modelled from the spec: the installed-state the Role Resolver and
`ensureInstalled` operate on — at most one Manifest per role and major
(the final install location for that role/major either holds a valid
install described by its Manifest, or nothing). -/
structure SystemState where
  installed : Role → ℕ → Option Manifest

/-- Record a freshly installed Manifest for one role and major. -/
def setInstalled (st : SystemState) (r : Role) (major : ℕ) (m : Manifest) :
    SystemState :=
  ⟨fun r2 mj => if r2 = r ∧ mj = major then some m else st.installed r2 mj⟩

/-- A Manifest satisfies a role/major request when it records that
major and a 64-bit architecture (spec §3). -/
def manifestOk (m : Manifest) (major : ℕ) : Bool :=
  (m.majorVersion == major) && m.arch64

/-- Modelled from the spec: the Manifest written by a successful
install of the requested major (schema version 2 with
`permissionsApplied`, per the runtime README contract). -/
def freshManifest (major : ℕ) : Manifest :=
  { schemaVersion := 2
    archiveChecksum := 0
    executableChecksum := 0
    installedAt := 0
    sourceUrl := "https://api.adoptium.net"
    executableRelativePath := ["bin", "java"]
    majorVersion := major
    arch64 := true
    identifier := "runtime-" ++ toString major
    displayVersion := toString major
    permissionsApplied := some true }

/-- Modelled from the spec: `ensureInstalled(role, requirement)`
(spec §6): if a valid Manifest for the role and major is already
installed it is returned unchanged and no installation happens
(the `Bool` result records whether a real installation was performed);
otherwise the Installer runs and the new Manifest is recorded. -/
def ensureInstalled (role : Role) (major : ℕ) (st : SystemState) :
    Manifest × SystemState × Bool :=
  match st.installed role major with
  | some m =>
      if manifestOk m major then (m, st, false)
      else (freshManifest major, setInstalled st role major (freshManifest major), true)
  | none => (freshManifest major, setInstalled st role major (freshManifest major), true)

/-- Modelled from the spec: each role's isolated storage subtree
(docs/runtime-roles.md `Estructura física`), as path segments. -/
def storageRoot : Role → List String
  | .Gamma => ["runtimes", "v1", "java-gamma"]
  | .Delta => ["runtimes", "v1", "java-delta"]

/-- Modelled from the spec: the per-role lock target, a fixed path
inside the role's own subtree. -/
def lockTarget (r : Role) : List String := storageRoot r ++ ["install.lock"]

/-- The launch descriptor returned by role resolution (spec §4.6). -/
structure LaunchDescriptor where
  absoluteExecutablePath : List String
  explicitHomeDirectory : List String
deriving DecidableEq, Repr

/-- Modelled from the spec: `resolve(role, requirement)` (spec §4.6):
ensures an installed runtime for the role's own storage subtree and
returns an absolute executable path and explicit home directory under
that subtree. -/
def resolve (role : Role) (major : ℕ) (st : SystemState) :
    LaunchDescriptor × SystemState :=
  let r := ensureInstalled role major st
  ({ absoluteExecutablePath :=
       storageRoot role ++ (r.1.identifier :: r.1.executableRelativePath)
     explicitHomeDirectory := storageRoot role ++ [r.1.identifier] },
   r.2.1)

/-- Modelled from the spec: the required major as the resolver derives
it — from the role and the guest application's declared version only;
the installed-state argument is what the resolver must *not* consult
(spec §4.6: a fixed mapping table, not inferred from installed
content). -/
def resolveRequiredMajor (r : Role) (v : McVersion) (_st : SystemState) : ℕ :=
  requiredMajor r v

/-- `underDir root p` holds when path `p` lies inside the directory
subtree rooted at `root` (segment-wise). -/
def underDir : List String → List String → Bool
  | [], _ => true
  | _ :: _, [] => false
  | a :: r, b :: q => a == b && underDir r q

/-! ## Runtime Installer state machine (spec §4.4) -/

/-- The installer's linear phases (spec §4.4). -/
inductive Phase where
  | ResolveRelease
  | Download
  | Extract
  | NormalizePermissions
  | WriteManifest
  | AtomicPromote
  | PostInstallValidate
deriving DecidableEq, Repr

/-- Position of a phase in the linear state machine. -/
def phaseIdx : Phase → ℕ
  | .ResolveRelease => 0
  | .Download => 1
  | .Extract => 2
  | .NormalizePermissions => 3
  | .WriteManifest => 4
  | .AtomicPromote => 5
  | .PostInstallValidate => 6

/-- The phases in execution order, no skips. -/
def installPhases : List Phase :=
  [.ResolveRelease, .Download, .Extract, .NormalizePermissions,
   .WriteManifest, .AtomicPromote, .PostInstallValidate]

/-- Modelled from the spec: the on-disk state the installer mutates.
Directory contents are abstracted as natural numbers; equality of the
values is byte-for-byte equality of the directories.  `finalDir` is
the final install location, `backupDir` the moved-aside previous
install, `staging` the uniquely named temporary directory (its value
tracks how many staging steps have completed). -/
structure Disk where
  finalDir : Option ℕ
  backupDir : Option ℕ
  staging : Option ℕ
deriving DecidableEq, Repr

/-- Modelled from the spec: the effect of one successfully completed
phase (spec §4.4).  Phases up to `WriteManifest` only build up the
staging directory; `AtomicPromote` renames staging into the final
location, moving a previous occupant aside as the backup;
`PostInstallValidate` deletes the moved-aside previous install only
on success. -/
def stepPhase (newContent : ℕ) (p : Phase) (d : Disk) : Disk :=
  match p with
  | .ResolveRelease => d
  | .Download => { d with staging := some 1 }
  | .Extract => { d with staging := some 2 }
  | .NormalizePermissions => { d with staging := some 3 }
  | .WriteManifest => { d with staging := some 4 }
  | .AtomicPromote =>
      { finalDir := some newContent, backupDir := d.finalDir, staging := none }
  | .PostInstallValidate => { d with backupDir := none }

/-- Modelled from the spec: cleanup on failure at a phase.  A failure
at any phase before the promote has completed discards the staging
directory and touches nothing else; `AtomicPromote` is atomic, so its
failure also leaves the final location untouched and discards staging;
a `PostInstallValidate` failure deletes nothing (the previous install
stays moved aside, the claim being that it is deleted only after
validation succeeds). -/
def cleanupAfterFailure (p : Phase) (d : Disk) : Disk :=
  if p = .PostInstallValidate then d else { d with staging := none }

/-- Outcome of one installer run. -/
inductive InstallOutcome where
  | success
  | failedAt (p : Phase)
deriving DecidableEq, Repr

/-- Modelled from the spec: run the remaining phases in order; `failAt`
is the first phase (if any) at which the run fails, in which case that
phase does not complete and its failure cleanup runs. -/
def runFrom (failAt : Option Phase) (newContent : ℕ) :
    List Phase → Disk → InstallOutcome × Disk
  | [], d => (.success, d)
  | p :: rest, d =>
      if failAt = some p then (.failedAt p, cleanupAfterFailure p d)
      else runFrom failAt newContent rest (stepPhase newContent p d)

/-- Modelled from the spec: one full run of the installer state machine
`ResolveRelease → … → PostInstallValidate` over an initial disk. -/
def runInstaller (failAt : Option Phase) (newContent : ℕ) (d : Disk) :
    InstallOutcome × Disk :=
  runFrom failAt newContent installPhases d

/-! ## Release resolution fallback and download retry (spec §4.4, §7) -/

/-- The artifact classes: the primary full runtime (`jre`) and the
alternate class (`jdk`). -/
inductive ArtifactClass where
  | jre
  | jdk
deriving DecidableEq, Repr

/-- Modelled from the spec: release resolution on the release API
first attempts the primary artifact class and falls back to the
alternate only when the primary is unavailable for the requested
version (`fallback jre → jdk`). -/
def resolveReleaseClass (avail : ArtifactClass → Bool) : Option ArtifactClass :=
  if avail .jre then some .jre
  else if avail .jdk then some .jdk
  else none

/-- Result of the download step: success after a number of attempts, or
a surfaced `NetworkFailure`. -/
inductive DownloadResult where
  | ok (attemptsUsed : ℕ)
  | networkFailure
deriving DecidableEq, Repr

/-- Modelled from the spec: exponential backoff — the delay before
retry `i` doubles with each attempt. -/
def backoffDelay (base i : ℕ) : ℕ := base * 2 ^ i

/-- Modelled from the spec: try up to `n` further attempts starting at
attempt index `i`; `outcome k` tells whether attempt `k` succeeds. -/
def tryDownload (outcome : ℕ → Bool) : ℕ → ℕ → DownloadResult
  | 0, _ => .networkFailure
  | n + 1, i => if outcome i then .ok (i + 1) else tryDownload outcome n (i + 1)

/-- Modelled from the spec: the download retry loop — a bounded number
of attempts, after which the network failure is surfaced to the
caller. -/
def downloadWithRetry (outcome : ℕ → Bool) (maxAttempts : ℕ) : DownloadResult :=
  tryDownload outcome maxAttempts 0

/-! ## Runtime Locator (spec §4.1) -/

/-- Modelled from the spec: a directory tree, enough structure for the
locator's read-only traversal. -/
inductive FSTree where
  | file
  | dir (entries : List (String × FSTree))

/-- Look up one named entry in a directory listing. -/
def lookupEntry : List (String × FSTree) → String → Option FSTree
  | [], _ => none
  | (n, t) :: rest, s => if n = s then some t else lookupEntry rest s

/-- Follow a path of segments from a root. -/
def lookupPath : FSTree → List String → Option FSTree
  | t, [] => some t
  | .file, _ :: _ => none
  | .dir es, s :: rest =>
      match lookupEntry es s with
      | none => none
      | some t => lookupPath t rest

/-- Whether a regular file exists at the given path under the root. -/
def isFileAt (root : FSTree) (p : List String) : Bool :=
  match lookupPath root p with
  | some .file => true
  | _ => false

/-- Modelled from the spec: the depth-bounded recursive search for a
file with the executable name, returning candidate paths in traversal
order. -/
def searchRec (exe : String) : ℕ → FSTree → List (List String)
  | _, .file => []
  | 0, .dir _ => []
  | d + 1, .dir es =>
      es.flatMap fun e =>
        match e with
        | (n, .file) => if n = exe then [[n]] else []
        | (n, .dir es2) => (searchRec exe d (.dir es2)).map fun p => n :: p

/-- The standard layout candidate: `bin/<exe>` (the executable name
already carries the platform-appropriate extension). -/
def stdLayout (exe : String) : List String := ["bin", exe]

/-- The macOS bundle layout candidate: `Contents/Home/bin/<exe>`. -/
def bundleLayout (exe : String) : List String :=
  ["Contents", "Home", "bin", exe]

/-- Modelled from the spec: `locate(root)` (spec §4.1) — check the
standard layout, then the bundle layout, and fall back to the
depth-bounded recursive search only when neither fixed layout matched;
the empty list (never an error) reports that nothing was found. -/
def locate (exe : String) (depthBound : ℕ) (root : FSTree) :
    List (List String) :=
  let fixedHits :=
    (if isFileAt root (stdLayout exe) then [stdLayout exe] else []) ++
      (if isFileAt root (bundleLayout exe) then [bundleLayout exe] else [])
  if fixedHits.isEmpty then searchRec exe depthBound root else fixedHits

/-- Locate together with the filesystem it leaves behind: the locator
is a read-only traversal, so the filesystem passes through unchanged
(spec §4.1: side effect none). -/
def locateWithFS (exe : String) (depthBound : ℕ) (root : FSTree) :
    List (List String) × FSTree :=
  (locate exe depthBound root, root)

end RuntimeManager

namespace Frontend

/-! ## Front-end instance-configuration save handler
(src/unnamed/part_003, `handleSaveInstanceConfig`) -/

/-- JavaScript whitespace as removed by `String.prototype.trim`
(modelled for the characters that occur in the launcher's inputs). -/
def jsWhitespace (c : Char) : Bool :=
  (c == ' ') || (c == '\t') || (c == '\n') || (c == '\r')

/-- `String.prototype.trim` over a character list: drop whitespace
from the front, then from the back. -/
def trimChars (s : List Char) : List Char :=
  List.rdropWhile jsWhitespace (List.dropWhile jsWhitespace s)

/-- `String.prototype.split("\n")` over a character list:
`[]` maps to `[[]]` and every newline separates two (possibly empty)
fields. -/
def splitLinesL : List Char → List (List Char)
  | [] => [[]]
  | c :: rest =>
      match splitLinesL rest with
      | [] => [[c]]
      | h :: t => if c = '\n' then [] :: h :: t else (c :: h) :: t

/-- The payload of the `update_instance_launch_config` backend command
as built by `handleSaveInstanceConfig`
(src/unnamed/part_003:799-805). -/
structure UpdatePayload where
  id : String
  java_path : Option (List Char)
  max_memory_mb : ℤ
  jvm_args : List (List Char)
  game_args : List (List Char)
deriving DecidableEq, Repr

/-- `Math.trunc` on a finite number: truncation toward zero. -/
def jsTrunc (q : ℚ) : ℤ := if q < 0 then -⌊-q⌋ else ⌊q⌋

/-- `handleSaveInstanceConfig` (src/unnamed/part_003:791-818), up to
the point where the backend command is invoked.  `selected` is the
selected instance id (`null` guard), `memParsed` the value
`Number(instanceMaxMemoryInput)` (`none` for a non-finite parse), the
remaining arguments the three text inputs.  The result is the payload
passed to `invoke("update_instance_launch_config", …)`, or `none` when
the handler returns without calling the backend. -/
def handleSaveInstanceConfig (selected : Option String) (memParsed : Option ℚ)
    (javaPathInput jvmArgsInput gameArgsInput : List Char) :
    Option UpdatePayload :=
  match selected with
  | none => none
  | some id =>
      match memParsed with
      | none => none
      | some m =>
          if m < 512 then none
          else
            some
              { id := id
                java_path :=
                  if trimChars javaPathInput = [] then none
                  else some (trimChars javaPathInput)
                max_memory_mb := jsTrunc m
                jvm_args :=
                  ((splitLinesL jvmArgsInput).map trimChars).filter
                    fun l => !l.isEmpty
                game_args :=
                  ((splitLinesL gameArgsInput).map trimChars).filter
                    fun l => !l.isEmpty }

/-! ## The two `formatBytes` helpers
(src/unnamed/part_003:136-142 and the README copy at
src/src-tauri/resources/runtime/README.md, whose unit table stops at
GB).  `Math.log(bytes)/Math.log(1024)` is modelled exactly as the
floor of the base-1024 logarithm; `units[power]` is modelled by
`jsElem`, which returns `none` (JavaScript `undefined`) for an
out-of-bounds index. -/

/-- `Math.floor(Math.log q / Math.log 1024)` for a positive rational,
computed exactly: the unique `k` with `1024^k ≤ q < 1024^(k+1)`. -/
def floorLog1024 (q : ℚ) : ℤ :=
  if q < 1 then -(Nat.clog 1024 ⌈q⁻¹⌉.toNat : ℤ)
  else (Nat.log 1024 ⌊q⌋.toNat : ℤ)

/-- The unit table of `formatBytes` in src/unnamed/part_003. -/
def appUnits : List String := ["B", "KB", "MB", "GB", "TB"]

/-- The unit table of `formatBytes` in the runtime README. -/
def readmeUnits : List String := ["B", "KB", "MB", "GB"]

/-- The clamped unit index computed by the part_003 `formatBytes`:
`Math.min(Math.floor(Math.log b / Math.log 1024), units.length - 1)`. -/
def appPower (b : ℚ) : ℤ := min (floorLog1024 b) ((appUnits.length : ℤ) - 1)

/-- The clamped unit index computed by the README `formatBytes`. -/
def readmePower (b : ℚ) : ℤ :=
  min (floorLog1024 b) ((readmeUnits.length : ℤ) - 1)

/-- JavaScript array indexing `units[i]`: `none` (JavaScript
`undefined`) when `i` is outside `[0, length)`. -/
def jsElem (units : List String) (i : ℤ) : Option String :=
  if h : 0 ≤ i ∧ i.toNat < units.length then some (units.get ⟨i.toNat, h.2⟩)
  else none

/-- The output of a `formatBytes` call, as the data the template
literal renders: either the constant string `"0 B"`, or the value
`bytes / 1024 ** power`, the number of `toFixed` decimals, and the
selected unit (`none` renders as `undefined`).  Rendering this data is
injective for the values the two functions produce, so equality here
coincides with equality of the returned strings. -/
inductive BytesStr where
  | zeroB
  | fmt (value : ℚ) (decimals : ℕ) (unit : Option String)
deriving DecidableEq, Repr

/-- The unit component a rendered `BytesStr` displays. -/
def unitOf : BytesStr → Option String
  | .zeroB => some "B"
  | .fmt _ _ u => u

/-- `formatBytes` of src/unnamed/part_003 (unit table up to TB).  The
argument is a JavaScript number: `none` for non-finite input. -/
def formatBytesApp (bytes : Option ℚ) : BytesStr :=
  match bytes with
  | none => .zeroB
  | some b =>
      if b ≤ 0 then .zeroB
      else
        .fmt (b / (1024 : ℚ) ^ appPower b)
          (if appPower b = 0 then 0 else 2)
          (jsElem appUnits (appPower b))

/-- `formatBytes` of the runtime README (unit table up to GB). -/
def formatBytesReadme (bytes : Option ℚ) : BytesStr :=
  match bytes with
  | none => .zeroB
  | some b =>
      if b ≤ 0 then .zeroB
      else
        .fmt (b / (1024 : ℚ) ^ readmePower b)
          (if readmePower b = 0 then 0 else 2)
          (jsElem readmeUnits (readmePower b))

end Frontend

/-! # Theorems -/

/-! ## Claim C2 — Lock Manager acquire/reclaim behaviour -/

namespace RuntimeManager

/-- C2: `acquire(target, ttl)` writes a fresh record and returns `Held`
when no record exists; overwrites a stale record (dead owner, or age
beyond TTL) and returns `Held` within the same call; returns `Busy`
otherwise; and a record whose owner is not a live process is reclaimed
regardless of TTL. -/
theorem acquire_spec_C2 (env : LockEnv) (ttl : ℕ) :
    (acquire env none ttl = (.Held, some ⟨env.selfPid, env.now⟩)) ∧
    (∀ r : LockRecord, stale env ttl r = true →
      acquire env (some r) ttl = (.Held, some ⟨env.selfPid, env.now⟩)) ∧
    (∀ r : LockRecord, stale env ttl r = false →
      acquire env (some r) ttl = (.Busy, some r)) ∧
    (∀ r : LockRecord, env.alive r.ownerProcessId = false →
      acquire env (some r) ttl = (.Held, some ⟨env.selfPid, env.now⟩)) := by
  refine ⟨rfl, ?_, ?_, ?_⟩
  · intro r h
    simp [acquire, h]
  · intro r h
    simp [acquire, h]
  · intro r h
    have hs : stale env ttl r = true := by simp [stale, h]
    simp [acquire, hs]

/-- Witness for C2 at a concrete environment and record: owner pid 999999
is dead, the record is reclaimed although its age 0 is within the TTL. -/
theorem acquire_spec_C2_witness :
    (RuntimeManager.LockEnv.alive ⟨100, 7, fun p => p = 7⟩) 999999 = false ∧
    acquire ⟨100, 7, fun p => p = 7⟩ (some ⟨999999, 100⟩) 300 =
      (.Held, some ⟨7, 100⟩) :=
  ⟨by decide,
   (acquire_spec_C2 ⟨100, 7, fun p => p = 7⟩ 300).2.2.2 ⟨999999, 100⟩ (by decide)⟩

end RuntimeManager

/-! ## Claim C3 — Runtime Validator -/

namespace RuntimeManager

/-- C3: `validate` returns `Usable` iff the process spawns and yields a
recognizable banner, the parsed major meets the requirement, and the
binary is 64-bit; any subprocess failure yields `Unusable`; vendor
metadata is never consulted; a 32-bit executable never validates. -/
theorem validate_spec_C3 (c : Candidate) (req : Requirement) :
    (validate c req = .Usable ↔
      (c.spawnOk = true ∧ c.timedOut = false ∧ c.exitCode = 0 ∧
        ∃ major, c.bannerMajor = some major ∧
          req.minMajor ≤ major ∧ c.is64Bit = true)) ∧
    (∀ v : String, validate { c with vendor := v } req = validate c req) ∧
    (c.is64Bit = false → validate c req = .Unusable) := by
  obtain ⟨s, t, e, b, a, v⟩ := c
  refine ⟨?_, fun v2 => rfl, ?_⟩
  · cases s with
    | false => simp [validate]
    | true =>
      cases t with
      | true => simp [validate]
      | false =>
        by_cases he : e = 0
        · cases b with
          | none => simp [validate, he]
          | some major =>
            by_cases hm : req.minMajor ≤ major <;> cases a <;>
              simp [validate, he, hm]
        · simp [validate, he]
  · rintro rfl
    cases s with
    | false => simp [validate]
    | true =>
      cases t with
      | true => simp [validate]
      | false =>
        by_cases he : e = 0
        · cases b with
          | none => simp [validate, he]
          | some major => simp [validate, he]
        · simp [validate, he]

/-- Witness for C3: a 64-bit candidate of major 21 from an arbitrary
vendor validates against a minimum of 17; renaming the vendor changes
nothing; flipping it to 32-bit makes it `Unusable`. -/
theorem validate_spec_C3_witness :
    validate ⟨true, false, 0, some 21, true, "temurin"⟩ ⟨17⟩ = .Usable ∧
    validate ⟨true, false, 0, some 21, true, "zulu"⟩ ⟨17⟩ =
      validate ⟨true, false, 0, some 21, true, "temurin"⟩ ⟨17⟩ ∧
    validate ⟨true, false, 0, some 21, false, "temurin"⟩ ⟨17⟩ = .Unusable := by
  refine ⟨?_, ?_, ?_⟩
  · exact (validate_spec_C3 ⟨true, false, 0, some 21, true, "temurin"⟩ ⟨17⟩).1.2
      ⟨rfl, rfl, rfl, 21, rfl, by decide, rfl⟩
  · exact (validate_spec_C3 ⟨true, false, 0, some 21, true, "temurin"⟩ ⟨17⟩).2.1 "zulu"
  · exact (validate_spec_C3 ⟨true, false, 0, some 21, false, "temurin"⟩ ⟨17⟩).2.2 rfl

end RuntimeManager

/-! ## Claim C4 — requirement-to-major mapping -/

namespace RuntimeManager

/-- C4: the required major comes from the fixed mapping table and not
from installed content: Gamma maps Minecraft `<= 1.20.4` to Java 17 and
`>= 1.20.5` to Java 21, Delta is the fixed constant 17 for every guest
version, and the derivation is independent of the installed state. -/
theorem requiredMajor_spec_C4 (v : McVersion) :
    (∀ st₁ st₂ : SystemState,
      resolveRequiredMajor .Gamma v st₁ = resolveRequiredMajor .Gamma v st₂ ∧
      resolveRequiredMajor .Delta v st₁ = resolveRequiredMajor .Delta v st₂) ∧
    (vle v ⟨1, 20, 4⟩ = true → requiredMajor .Gamma v = 17) ∧
    (vle ⟨1, 20, 5⟩ v = true → requiredMajor .Gamma v = 21) ∧
    requiredMajor .Delta v = 17 ∧
    requiredMajor .Gamma v = lookupMajor gammaTable 21 v := by
  obtain ⟨a, b, c⟩ := v
  refine ⟨fun st₁ st₂ => ⟨rfl, rfl⟩, ?_, ?_, rfl, rfl⟩
  · intro h
    simp [requiredMajor, lookupMajor, gammaTable, h]
  · intro h
    have hf : vle ⟨a, b, c⟩ ⟨1, 20, 4⟩ = false := by
      simp only [vle, vleP, decide_eq_true_eq] at h
      simp only [vle, vleP, decide_eq_false_iff_not]
      omega
    simp [requiredMajor, lookupMajor, gammaTable, hf]

/-- Witness for C4: Minecraft 1.20.4 requires Java 17, Minecraft 1.21.0
requires Java 21. -/
theorem requiredMajor_spec_C4_witness :
    (vle ⟨1, 20, 4⟩ ⟨1, 20, 4⟩ = true ∧ requiredMajor .Gamma ⟨1, 20, 4⟩ = 17) ∧
    (vle ⟨1, 20, 5⟩ ⟨1, 21, 0⟩ = true ∧ requiredMajor .Gamma ⟨1, 21, 0⟩ = 21) :=
  ⟨⟨by decide, (requiredMajor_spec_C4 ⟨1, 20, 4⟩).2.1 (by decide)⟩,
   ⟨by decide, (requiredMajor_spec_C4 ⟨1, 21, 0⟩).2.2.1 (by decide)⟩⟩

end RuntimeManager

/-! ## Claim C5 — role isolation -/

namespace RuntimeManager

/-- C5: Gamma and Delta never share a storage root, a lock target, or a
resolved executable path: resolving one role never yields a path under
the other role's storage subtree, whatever the requested majors and
installed states. -/
theorem role_isolation_C5 :
    storageRoot .Gamma ≠ storageRoot .Delta ∧
    lockTarget .Gamma ≠ lockTarget .Delta ∧
    (∀ (mG : ℕ) (st : SystemState),
      underDir (storageRoot .Delta)
        ((resolve .Gamma mG st).1.absoluteExecutablePath) = false) ∧
    (∀ (mD : ℕ) (st : SystemState),
      underDir (storageRoot .Gamma)
        ((resolve .Delta mD st).1.absoluteExecutablePath) = false) ∧
    (∀ (mG mD : ℕ) (stG stD : SystemState),
      (resolve .Gamma mG stG).1.absoluteExecutablePath ≠
        (resolve .Delta mD stD).1.absoluteExecutablePath) := by
  refine ⟨by decide, by decide, ?_, ?_, ?_⟩
  · intro mG st
    simp [resolve, storageRoot, underDir]
  · intro mD st
    simp [resolve, storageRoot, underDir]
  · intro mG mD stG stD h
    simp only [resolve, storageRoot] at h
    have h3 := congrArg (fun l => List.take 3 l) h
    simp at h3

/-- Witness for C5 at concrete majors and an empty installed state:
the two resolved executable paths differ. -/
theorem role_isolation_C5_witness :
    (resolve .Gamma 17 ⟨fun _ _ => none⟩).1.absoluteExecutablePath ≠
      (resolve .Delta 17 ⟨fun _ _ => none⟩).1.absoluteExecutablePath :=
  role_isolation_C5.2.2.2.2 17 17 ⟨fun _ _ => none⟩ ⟨fun _ _ => none⟩

end RuntimeManager

/-! ## Claim C6 — idempotence of ensureInstalled and resolve -/

namespace RuntimeManager

/-- After any `ensureInstalled` call, the role/major slot holds exactly
the returned Manifest and that Manifest satisfies the request. -/
theorem ensureInstalled_post (role : Role) (major : ℕ) (st : SystemState) :
    ((ensureInstalled role major st).2.1).installed role major =
      some ((ensureInstalled role major st).1) ∧
    manifestOk ((ensureInstalled role major st).1) major = true := by
  cases h : st.installed role major with
  | none =>
      simp [ensureInstalled, h, setInstalled, manifestOk, freshManifest]
  | some m =>
      by_cases hok : manifestOk m major = true
      · simp [ensureInstalled, h, hok]
      · have hok' : manifestOk m major = false := by
          revert hok; cases manifestOk m major <;> simp
        simp only [ensureInstalled, h, hok', Bool.false_eq_true, if_false]
        simp [setInstalled, manifestOk, freshManifest]

/-- A call that finds a valid Manifest returns it, changes nothing and
performs no installation. -/
theorem ensureInstalled_found (role : Role) (major : ℕ) (st : SystemState)
    (m : Manifest) (h : st.installed role major = some m)
    (hok : manifestOk m major = true) :
    ensureInstalled role major st = (m, st, false) := by
  simp [ensureInstalled, h, hok]

/-- C6: a second `ensureInstalled` for the same role and major performs
no real installation, returns the same Manifest, changes no state, and
the state after the first call holds exactly one valid Manifest for
that role and major; `resolve` is likewise idempotent. -/
theorem ensureInstalled_idem_C6 (role : Role) (major : ℕ) (st : SystemState) :
    (ensureInstalled role major ((ensureInstalled role major st).2.1)).2.2 = false ∧
    (ensureInstalled role major ((ensureInstalled role major st).2.1)).1 =
      (ensureInstalled role major st).1 ∧
    (ensureInstalled role major ((ensureInstalled role major st).2.1)).2.1 =
      (ensureInstalled role major st).2.1 ∧
    ((ensureInstalled role major st).2.1).installed role major =
      some ((ensureInstalled role major st).1) ∧
    manifestOk ((ensureInstalled role major st).1) major = true ∧
    resolve role major ((resolve role major st).2) = resolve role major st := by
  obtain ⟨hpost1, hpost2⟩ := ensureInstalled_post role major st
  have hsecond := ensureInstalled_found role major _ _ hpost1 hpost2
  refine ⟨by rw [hsecond], by rw [hsecond], by rw [hsecond], hpost1, hpost2, ?_⟩
  show resolve role major ((ensureInstalled role major st).2.1) =
    resolve role major st
  simp only [resolve]
  rw [hsecond]

end RuntimeManager

/-! ## Claim C1 — installer atomicity and rollback -/

namespace RuntimeManager

/-- C1: a failure at any phase up to and including `WriteManifest`
discards the staging directory and leaves the final location (and any
moved-aside backup) byte-for-byte untouched; whenever the run does not
succeed, a previously installed runtime is still present (at the final
location or moved aside), so the previous install is deleted only after
`PostInstallValidate` succeeds; a fully successful run promotes the new
content and deletes the previous install. -/
theorem installer_atomicity_C1 (p : Phase) (n : ℕ) (d : Disk) :
    (phaseIdx p ≤ phaseIdx .WriteManifest →
      (runInstaller (some p) n d).2.staging = none ∧
      (runInstaller (some p) n d).2.finalDir = d.finalDir ∧
      (runInstaller (some p) n d).2.backupDir = d.backupDir) ∧
    (∀ prev, d.finalDir = some prev →
      ((runInstaller (some p) n d).2.finalDir = some prev ∨
        (runInstaller (some p) n d).2.backupDir = some prev)) ∧
    ((runInstaller none n d).1 = .success ∧
      (runInstaller none n d).2.finalDir = some n ∧
      (runInstaller none n d).2.backupDir = none ∧
      (runInstaller none n d).2.staging = none) := by
  refine ⟨?_, ?_, ?_⟩
  · intro hle
    cases p <;>
      simp_all [runInstaller, installPhases, runFrom, stepPhase,
        cleanupAfterFailure, phaseIdx]
  · intro prev hprev
    cases p <;>
      simp [runInstaller, installPhases, runFrom, stepPhase,
        cleanupAfterFailure, hprev]
  · simp [runInstaller, installPhases, runFrom, stepPhase]

/-- Witness for C1: a failure at `Extract` over a disk holding a
previous install (content 5) discards staging and keeps content 5 at
the final location. -/
theorem installer_atomicity_C1_witness :
    (phaseIdx .Extract ≤ phaseIdx .WriteManifest ∧
      ((runInstaller (some .Extract) 9 ⟨some 5, none, none⟩).2.staging = none ∧
        (runInstaller (some .Extract) 9 ⟨some 5, none, none⟩).2.finalDir =
          (Disk.mk (some 5) none none).finalDir ∧
        (runInstaller (some .Extract) 9 ⟨some 5, none, none⟩).2.backupDir =
          (Disk.mk (some 5) none none).backupDir)) ∧
    ((Disk.mk (some 5) none none).finalDir = some 5 ∧
      ((runInstaller (some .Extract) 9 ⟨some 5, none, none⟩).2.finalDir = some 5 ∨
        (runInstaller (some .Extract) 9 ⟨some 5, none, none⟩).2.backupDir = some 5)) :=
  ⟨⟨by decide, (installer_atomicity_C1 .Extract 9 ⟨some 5, none, none⟩).1 (by decide)⟩,
   ⟨rfl, (installer_atomicity_C1 .Extract 9 ⟨some 5, none, none⟩).2.1 5 rfl⟩⟩

end RuntimeManager

/-! ## Claim C7 — release fallback and download retry -/

namespace RuntimeManager

/-- If every attempt below `n` (counting from `s`) fails, the bounded
retry loop surfaces the network failure. -/
theorem tryDownload_all_fail (outcome : ℕ → Bool) :
    ∀ n s, (∀ k, k < n → outcome (s + k) = false) →
      tryDownload outcome n s = .networkFailure := by
  intro n
  induction n with
  | zero => intro s _; rfl
  | succ m ih =>
      intro s h
      have h0 : outcome s = false := by simpa using h 0 (Nat.succ_pos m)
      simp only [tryDownload, h0, Bool.false_eq_true, if_false]
      exact ih (s + 1) fun k hk => by
        have hx := h (k + 1) (by omega)
        rwa [show s + (k + 1) = s + 1 + k by omega] at hx

/-- The retry loop returns success after the first successful attempt. -/
theorem tryDownload_first_success (outcome : ℕ → Bool) :
    ∀ j n s, j < n → (∀ k, k < j → outcome (s + k) = false) →
      outcome (s + j) = true → tryDownload outcome n s = .ok (s + j + 1) := by
  intro j
  induction j with
  | zero =>
      intro n s hn h0 hj
      cases n with
      | zero => omega
      | succ m =>
          rw [Nat.add_zero] at hj
          simp [tryDownload, hj]
  | succ j ih =>
      intro n s hn hbefore hsucc
      cases n with
      | zero => omega
      | succ m =>
          have h0 : outcome s = false := by simpa using hbefore 0 (Nat.succ_pos j)
          simp only [tryDownload, h0, Bool.false_eq_true, if_false]
          have hx := ih m (s + 1) (by omega)
            (fun k hk => by
              have hy := hbefore (k + 1) (by omega)
              rwa [show s + (k + 1) = s + 1 + k by omega] at hy)
            (by rwa [show s + 1 + j = s + (j + 1) by omega])
          rwa [show s + 1 + j + 1 = s + (j + 1) + 1 by omega] at hx

/-- C7: release resolution attempts the primary artifact class (the
full runtime, `jre`) first and falls back to the alternate class
(`jdk`) only when the primary is unavailable; the download step retries
failures with exponential (doubling) backoff up to the bounded attempt
count and then surfaces the `NetworkFailure`. -/
theorem install_retry_fallback_C7 (avail : ArtifactClass → Bool)
    (outcome : ℕ → Bool) (maxAttempts base : ℕ) :
    (avail .jre = true → resolveReleaseClass avail = some .jre) ∧
    (avail .jre = false → avail .jdk = true →
      resolveReleaseClass avail = some .jdk) ∧
    (avail .jre = false → avail .jdk = false → resolveReleaseClass avail = none) ∧
    ((∀ k, k < maxAttempts → outcome k = false) →
      downloadWithRetry outcome maxAttempts = .networkFailure) ∧
    (∀ j, j < maxAttempts → (∀ k, k < j → outcome k = false) →
      outcome j = true → downloadWithRetry outcome maxAttempts = .ok (j + 1)) ∧
    (∀ i, backoffDelay base (i + 1) = 2 * backoffDelay base i) := by
  refine ⟨?_, ?_, ?_, ?_, ?_, ?_⟩
  · intro h; simp [resolveReleaseClass, h]
  · intro h1 h2; simp [resolveReleaseClass, h1, h2]
  · intro h1 h2; simp [resolveReleaseClass, h1, h2]
  · intro h
    exact tryDownload_all_fail outcome maxAttempts 0 fun k hk => by
      simpa using h k hk
  · intro j hj hb hs
    have hx := tryDownload_first_success outcome j maxAttempts 0 hj
      (fun k hk => by simpa using hb k hk) (by simpa using hs)
    simpa using hx
  · intro i
    simp [backoffDelay, pow_succ]
    ring

/-- Witness for C7: with attempt 0 failing and attempt 1 succeeding,
three allowed attempts download successfully on the second attempt;
with the primary class unavailable, resolution falls back to `jdk`. -/
theorem install_retry_fallback_C7_witness :
    downloadWithRetry (fun i => i == 1) 3 = .ok 2 ∧
    resolveReleaseClass (fun c => c == .jdk) = some .jdk :=
  ⟨(install_retry_fallback_C7 (fun c => c == .jdk) (fun i => i == 1) 3 1).2.2.2.2.1 1
      (by decide)
      (fun k hk => by
        have hk0 : k = 0 := Nat.lt_one_iff.mp hk
        simp [hk0])
      (by decide),
   (install_retry_fallback_C7 (fun c => c == .jdk) (fun i => i == 1) 3 1).2.1
      (by decide) (by decide)⟩

end RuntimeManager

/-! ## Claim C8 — locator layout order and fallback -/

namespace RuntimeManager

/-- C8: `locate` checks the standard layout first, then the bundle
layout, falls back to the depth-bounded recursive search only when
neither fixed layout matched, returns the empty list (not an error)
when nothing is found, and performs no filesystem writes (the
filesystem passes through unchanged). -/
theorem locate_spec_C8 (exe : String) (depth : ℕ) (root : FSTree) :
    (isFileAt root (stdLayout exe) = true →
      isFileAt root (bundleLayout exe) = true →
      locate exe depth root = [stdLayout exe, bundleLayout exe]) ∧
    (isFileAt root (stdLayout exe) = true →
      isFileAt root (bundleLayout exe) = false →
      locate exe depth root = [stdLayout exe]) ∧
    (isFileAt root (stdLayout exe) = false →
      isFileAt root (bundleLayout exe) = true →
      locate exe depth root = [bundleLayout exe]) ∧
    (isFileAt root (stdLayout exe) = false →
      isFileAt root (bundleLayout exe) = false →
      locate exe depth root = searchRec exe depth root) ∧
    (isFileAt root (stdLayout exe) = false →
      isFileAt root (bundleLayout exe) = false →
      searchRec exe depth root = [] → locate exe depth root = []) ∧
    (locateWithFS exe depth root).2 = root := by
  refine ⟨?_, ?_, ?_, ?_, ?_, rfl⟩
  · intro h1 h2; simp [locate, h1, h2]
  · intro h1 h2; simp [locate, h1, h2]
  · intro h1 h2; simp [locate, h1, h2]
  · intro h1 h2; simp [locate, h1, h2]
  · intro h1 h2 h3; simp [locate, h1, h2, h3]

/-- Witness for C8 on a concrete tree that only has the macOS bundle
layout: the standard layout misses, the bundle layout hits, and locate
returns exactly the bundle candidate. -/
theorem locate_spec_C8_witness :
    isFileAt
        (.dir [("Contents", .dir [("Home", .dir [("bin", .dir [("java", .file)])])])])
        (stdLayout "java") = false ∧
    isFileAt
        (.dir [("Contents", .dir [("Home", .dir [("bin", .dir [("java", .file)])])])])
        (bundleLayout "java") = true ∧
    locate "java" 4
        (.dir [("Contents", .dir [("Home", .dir [("bin", .dir [("java", .file)])])])]) =
      [bundleLayout "java"] :=
  ⟨rfl, rfl,
   (locate_spec_C8 "java" 4
      (.dir [("Contents", .dir [("Home", .dir [("bin", .dir [("java", .file)])])])])).2.2.1
     rfl rfl⟩

end RuntimeManager

/-! ## Claim C9 — instance-configuration save handler -/

namespace Frontend

/-- A list with no leading whitespace keeps having none after its
trailing whitespace is removed. -/
theorem dropWhile_of_trimmed (p : Char → Bool) (l : List Char)
    (h : List.dropWhile p l = l) :
    List.dropWhile p (List.rdropWhile p l) = List.rdropWhile p l := by
  cases hB : List.rdropWhile p l with
  | nil => simp
  | cons b bs =>
      have hpre : List.rdropWhile p l <+: l := List.rdropWhile_prefix p l
      rw [hB] at hpre
      obtain ⟨t, ht⟩ := hpre
      have hl : l = b :: (bs ++ t) := by rw [← ht]; rfl
      rw [hl, List.dropWhile_cons] at h
      by_cases hpb : p b = true
      · rw [if_pos hpb] at h
        have hsuf : List.dropWhile p (bs ++ t) <:+ (bs ++ t) :=
          List.dropWhile_suffix _
        rw [h] at hsuf
        have hlen := List.IsSuffix.length_le hsuf
        simp at hlen
      · rw [List.dropWhile_cons, if_neg hpb]

/-- JavaScript `trim` is idempotent. -/
theorem trimChars_idem (s : List Char) : trimChars (trimChars s) = trimChars s := by
  unfold trimChars
  rw [dropWhile_of_trimmed jsWhitespace (List.dropWhile jsWhitespace s)
    (List.dropWhile_idempotent jsWhitespace s)]
  exact List.rdropWhile_idempotent jsWhitespace (List.dropWhile jsWhitespace s)

/-- C9: whenever `handleSaveInstanceConfig` actually produces a backend
payload, `max_memory_mb` is an integer of at least 512 and both
argument lists consist solely of trimmed non-empty lines; a non-finite
memory parse or a value below 512 is rejected locally and no backend
call is made. -/
theorem handleSaveInstanceConfig_spec_C9 :
    (∀ (sel : Option String) (mem : Option ℚ) (jp ji gi : List Char)
        (P : UpdatePayload),
      handleSaveInstanceConfig sel mem jp ji gi = some P →
      512 ≤ P.max_memory_mb ∧
      (∀ a ∈ P.jvm_args, a ≠ [] ∧ trimChars a = a) ∧
      (∀ a ∈ P.game_args, a ≠ [] ∧ trimChars a = a)) ∧
    (∀ (sel : Option String) (jp ji gi : List Char),
      handleSaveInstanceConfig sel none jp ji gi = none) ∧
    (∀ (sel : Option String) (m : ℚ) (jp ji gi : List Char), m < 512 →
      handleSaveInstanceConfig sel (some m) jp ji gi = none) := by
  refine ⟨?_, ?_, ?_⟩
  · intro sel mem jp ji gi P h
    match sel, mem with
    | none, _ => simp [handleSaveInstanceConfig] at h
    | some id, none => simp [handleSaveInstanceConfig] at h
    | some id, some m =>
        by_cases hm : m < 512
        · simp [handleSaveInstanceConfig, hm] at h
        · simp only [handleSaveInstanceConfig, if_neg hm, Option.some.injEq] at h
          subst h
          push_neg at hm
          refine ⟨?_, ?_, ?_⟩
          · show (512 : ℤ) ≤ jsTrunc m
            unfold jsTrunc
            rw [if_neg (by intro hc; nlinarith)]
            rw [Int.le_floor]
            exact_mod_cast hm
          · intro a ha
            obtain ⟨ha1, ha2⟩ := List.mem_filter.mp ha
            obtain ⟨b, _, hb2⟩ := List.mem_map.mp ha1
            refine ⟨?_, ?_⟩
            · intro hnil
              rw [hnil] at ha2
              simp at ha2
            · rw [← hb2]
              exact trimChars_idem b
          · intro a ha
            obtain ⟨ha1, ha2⟩ := List.mem_filter.mp ha
            obtain ⟨b, _, hb2⟩ := List.mem_map.mp ha1
            refine ⟨?_, ?_⟩
            · intro hnil
              rw [hnil] at ha2
              simp at ha2
            · rw [← hb2]
              exact trimChars_idem b
  · intro sel jp ji gi
    cases sel <;> rfl
  · intro sel m jp ji gi hm
    cases sel with
    | none => rfl
    | some id => simp [handleSaveInstanceConfig, hm]

/-- Witness for C9: a concrete save with memory input 1000 and an
argument box containing one real line surrounded by whitespace-only
lines sends `max_memory_mb = 1000` and a single trimmed argument. -/
theorem handleSaveInstanceConfig_spec_C9_witness :
    handleSaveInstanceConfig (some "inst") (some 1000) [' ']
        [' ', 'a', '\n', ' ', '\t'] [] =
      some ⟨"inst", none, 1000, [['a']], []⟩ ∧
    (512 ≤ (UpdatePayload.mk "inst" none 1000 [['a']] []).max_memory_mb ∧
      (∀ a ∈ (UpdatePayload.mk "inst" none 1000 [['a']] []).jvm_args,
        a ≠ [] ∧ trimChars a = a) ∧
      (∀ a ∈ (UpdatePayload.mk "inst" none 1000 [['a']] []).game_args,
        a ≠ [] ∧ trimChars a = a)) :=
  ⟨by decide,
   handleSaveInstanceConfig_spec_C9.1 (some "inst") (some 1000) [' ']
     [' ', 'a', '\n', ' ', '\t'] [] ⟨"inst", none, 1000, [['a']], []⟩ (by decide)⟩

end Frontend

/-! ## Claim C10 — the two formatBytes helpers -/

namespace Frontend

/-- A value of at least 1 has a non-negative floor logarithm. -/
theorem floorLog1024_nonneg {q : ℚ} (h : 1 ≤ q) : 0 ≤ floorLog1024 q := by
  unfold floorLog1024
  rw [if_neg (not_lt.mpr h)]
  exact Int.natCast_nonneg _

/-- A positive value below `1024 ^ 4` has floor logarithm at most 3. -/
theorem floorLog1024_le_three {q : ℚ} (_h0 : 0 < q) (hq : q < 1024 ^ 4) :
    floorLog1024 q ≤ 3 := by
  unfold floorLog1024
  split_ifs with h1
  · have hnn : (0 : ℤ) ≤ (Nat.clog 1024 ⌈q⁻¹⌉.toNat : ℤ) := Int.natCast_nonneg _
    omega
  · push_neg at h1
    have hfl1 : (1 : ℤ) ≤ ⌊q⌋ := by
      rw [Int.le_floor]
      exact_mod_cast h1
    have hlt : ⌊q⌋ < (1024 : ℤ) ^ 4 := by
      rw [Int.floor_lt]
      exact_mod_cast hq
    have hn0 : ⌊q⌋.toNat ≠ 0 := by omega
    have hltn : ⌊q⌋.toNat < 1024 ^ 4 := by
      have h2 : ((⌊q⌋.toNat : ℤ)) < (1024 : ℤ) ^ 4 := by
        rwa [Int.toNat_of_nonneg (by omega)]
      exact_mod_cast h2
    have hlog := (Nat.lt_pow_iff_log_lt (by norm_num) hn0).mp hltn
    omega

/-- A value of at least `1024 ^ 4` has floor logarithm at least 4. -/
theorem four_le_floorLog1024 {q : ℚ} (hq : (1024 : ℚ) ^ 4 ≤ q) :
    4 ≤ floorLog1024 q := by
  have h1 : (1 : ℚ) ≤ q := le_trans (by norm_num) hq
  unfold floorLog1024
  rw [if_neg (not_lt.mpr h1)]
  have hfl : (1024 : ℤ) ^ 4 ≤ ⌊q⌋ := by
    rw [Int.le_floor]
    exact_mod_cast hq
  have hn : 1024 ^ 4 ≤ ⌊q⌋.toNat := by
    have h2 : ((1024 : ℤ) ^ 4) ≤ (⌊q⌋.toNat : ℤ) := by
      rwa [Int.toNat_of_nonneg (le_trans (by positivity) hfl)]
    exact_mod_cast h2
  have hn0 : ⌊q⌋.toNat ≠ 0 := by
    have hp : (0 : ℕ) < 1024 ^ 4 := by positivity
    omega
  have hlog := (Nat.pow_le_iff_le_log (by norm_num) hn0).mp hn
  omega

/-- A positive value below 1 has a negative floor logarithm. -/
theorem floorLog1024_neg {q : ℚ} (h0 : 0 < q) (h1 : q < 1) :
    floorLog1024 q < 0 := by
  have hinv : (1 : ℚ) < q⁻¹ := one_lt_inv_iff₀.mpr ⟨h0, h1⟩
  have hc : (1 : ℤ) < ⌈q⁻¹⌉ := Int.lt_ceil.mpr (by exact_mod_cast hinv)
  have h2 : 2 ≤ ⌈q⁻¹⌉.toNat := by omega
  have hclog := Nat.clog_pos (b := 1024) (by norm_num) h2
  unfold floorLog1024
  rw [if_pos h1]
  omega

/-- The two unit tables agree at every index that can arise below the
TB threshold (negative indices select `undefined` in both). -/
theorem jsElem_agree {i : ℤ} (hi : i ≤ 3) :
    jsElem appUnits i = jsElem readmeUnits i := by
  by_cases hneg : i < 0
  · have h1 : ¬(0 ≤ i ∧ i.toNat < appUnits.length) := fun hc => absurd hc.1 (by omega)
    have h2 : ¬(0 ≤ i ∧ i.toNat < readmeUnits.length) := fun hc => absurd hc.1 (by omega)
    unfold jsElem
    rw [dif_neg h1, dif_neg h2]
  · push_neg at hneg
    interval_cases i <;> decide

/-- C10 (amended): the two `formatBytes` helpers return the same
string for every non-finite input, every non-positive input, and every
finite input below `1024 ^ 4`; from `1024 ^ 4` upward they disagree,
the part_003 one reporting TB and the README one clamping to GB;
neither ever clamps above its unit table, and for every input of at
least 1 (hence for every positive byte count) the computed unit index
is in bounds — while every input strictly between 0 and 1 makes both
functions compute one and the same negative index, an out-of-bounds
access yielding JavaScript `undefined` in both. -/
theorem formatBytes_equiv_C10 :
    (formatBytesApp none = .zeroB ∧ formatBytesReadme none = .zeroB) ∧
    (∀ q : ℚ, q ≤ 0 →
      formatBytesApp (some q) = .zeroB ∧ formatBytesReadme (some q) = .zeroB) ∧
    (∀ q : ℚ, q < 1024 ^ 4 →
      formatBytesApp (some q) = formatBytesReadme (some q)) ∧
    (∀ q : ℚ, (1024 : ℚ) ^ 4 ≤ q →
      formatBytesApp (some q) ≠ formatBytesReadme (some q) ∧
      unitOf (formatBytesApp (some q)) = some "TB" ∧
      unitOf (formatBytesReadme (some q)) = some "GB") ∧
    (∀ q : ℚ, appPower q ≤ (appUnits.length : ℤ) - 1 ∧
      readmePower q ≤ (readmeUnits.length : ℤ) - 1) ∧
    (∀ q : ℚ, 1 ≤ q →
      (0 ≤ appPower q ∧ appPower q < (appUnits.length : ℤ)) ∧
      (0 ≤ readmePower q ∧ readmePower q < (readmeUnits.length : ℤ))) ∧
    (∀ q : ℚ, 0 < q → q < 1 →
      appPower q = readmePower q ∧ appPower q < 0) := by
  refine ⟨⟨rfl, rfl⟩, ?_, ?_, ?_, ?_, ?_, ?_⟩
  · intro q hq
    exact ⟨by simp [formatBytesApp, hq], by simp [formatBytesReadme, hq]⟩
  · intro q hq
    by_cases h0 : q ≤ 0
    · simp [formatBytesApp, formatBytesReadme, h0]
    · push_neg at h0
      have hf3 : floorLog1024 q ≤ 3 := floorLog1024_le_three h0 hq
      have hA : appPower q = floorLog1024 q := by
        unfold appPower
        simp only [appUnits, List.length_cons, List.length_nil]
        omega
      have hR : readmePower q = floorLog1024 q := by
        unfold readmePower
        simp only [readmeUnits, List.length_cons, List.length_nil]
        omega
      simp only [formatBytesApp, formatBytesReadme, if_neg (not_le.mpr h0)]
      rw [hA, hR, jsElem_agree hf3]
  · intro q hq
    have hpos : (0 : ℚ) < q := lt_of_lt_of_le (by positivity) hq
    have h0 : ¬ q ≤ 0 := not_le.mpr hpos
    have hf4 : 4 ≤ floorLog1024 q := four_le_floorLog1024 hq
    have hA : appPower q = 4 := by
      unfold appPower
      simp only [appUnits, List.length_cons, List.length_nil]
      omega
    have hR : readmePower q = 3 := by
      unfold readmePower
      simp only [readmeUnits, List.length_cons, List.length_nil]
      omega
    have hTB : jsElem appUnits (4 : ℤ) = some "TB" := by decide
    have hGB : jsElem readmeUnits (3 : ℤ) = some "GB" := by decide
    refine ⟨?_, ?_, ?_⟩
    · intro hcontra
      have hu := congrArg unitOf hcontra
      simp only [formatBytesApp, formatBytesReadme, if_neg h0, hA, hR, hTB, hGB,
        unitOf] at hu
      exact absurd hu (by decide)
    · simp only [formatBytesApp, if_neg h0, hA, hTB, unitOf]
    · simp only [formatBytesReadme, if_neg h0, hR, hGB, unitOf]
  · intro q
    exact ⟨min_le_right _ _, min_le_right _ _⟩
  · intro q hq
    have h0 := floorLog1024_nonneg hq
    constructor
    · unfold appPower
      simp only [appUnits, List.length_cons, List.length_nil]
      omega
    · unfold readmePower
      simp only [readmeUnits, List.length_cons, List.length_nil]
      omega
  · intro q h0 h1
    have hneg : floorLog1024 q < 0 := floorLog1024_neg h0 h1
    constructor
    · unfold appPower readmePower
      simp only [appUnits, readmeUnits, List.length_cons, List.length_nil]
      omega
    · unfold appPower
      simp only [appUnits, List.length_cons, List.length_nil]
      omega

/-- Witness for C10 at concrete inputs: at 1536 bytes the two
functions agree; at `1024 ^ 4` they disagree, one reporting TB and the
other GB; at 1/2 both compute the same negative unit index. -/
theorem formatBytes_equiv_C10_witness :
    ((1536 : ℚ) < 1024 ^ 4 ∧
      formatBytesApp (some 1536) = formatBytesReadme (some 1536)) ∧
    ((1024 : ℚ) ^ 4 ≤ 1024 ^ 4 ∧
      formatBytesApp (some (1024 ^ 4)) ≠ formatBytesReadme (some (1024 ^ 4))) ∧
    ((0 : ℚ) < 1/2 ∧ (1/2 : ℚ) < 1 ∧
      appPower (1/2 : ℚ) = readmePower (1/2 : ℚ) ∧ appPower (1/2 : ℚ) < 0) :=
  ⟨⟨by norm_num, formatBytes_equiv_C10.2.2.1 1536 (by norm_num)⟩,
   ⟨le_refl _, (formatBytes_equiv_C10.2.2.2.1 (1024 ^ 4) (le_refl _)).1⟩,
   ⟨by norm_num, by norm_num,
    (formatBytes_equiv_C10.2.2.2.2.2.2 (1/2) (by norm_num) (by norm_num)).1,
    (formatBytes_equiv_C10.2.2.2.2.2.2 (1/2) (by norm_num) (by norm_num)).2⟩⟩

/-- Counterexample to C10 as stated: at the finite positive input 1/2
(below `1024 ^ 4`), both functions compute the unit index −1 — an
out-of-bounds access into their unit arrays (JavaScript `undefined`) —
so the claim that neither ever indexes its unit array out of bounds is
false, although the two returned strings are still identical. -/
theorem formatBytes_oob_C10_counterexample :
    floorLog1024 (1/2 : ℚ) = -1 ∧
    appPower (1/2 : ℚ) = -1 ∧
    ¬ (0 ≤ appPower (1/2 : ℚ)) ∧
    jsElem appUnits (appPower (1/2 : ℚ)) = none ∧
    formatBytesApp (some (1/2 : ℚ)) = .fmt 512 2 none ∧
    formatBytesApp (some (1/2 : ℚ)) = formatBytesReadme (some (1/2 : ℚ)) := by
  have hf : floorLog1024 (1/2 : ℚ) = -1 := by
    unfold floorLog1024
    rw [if_pos (by norm_num)]
    have h2 : ((1/2 : ℚ))⁻¹ = 2 := by norm_num
    rw [h2]
    have h3 : ⌈(2 : ℚ)⌉ = 2 := by norm_num
    rw [h3]
    have h4 : (2 : ℤ).toNat = 2 := rfl
    rw [h4, Nat.clog_eq_one (by norm_num) (by norm_num)]
    rfl
  have hp : appPower (1/2 : ℚ) = -1 := by
    unfold appPower
    rw [hf]
    decide
  have hpr : readmePower (1/2 : ℚ) = -1 := by
    unfold readmePower
    rw [hf]
    decide
  have hnotle : ¬ (1/2 : ℚ) ≤ 0 := by norm_num
  have hval : (1/2 : ℚ) / (1024 : ℚ) ^ (-1 : ℤ) = 512 := by
    rw [zpow_neg, zpow_one]
    norm_num
  have heA : formatBytesApp (some (1/2 : ℚ)) = .fmt 512 2 none := by
    simp only [formatBytesApp, if_neg hnotle, hp]
    rw [hval]
    norm_num
    decide
  have heR : formatBytesReadme (some (1/2 : ℚ)) = .fmt 512 2 none := by
    simp only [formatBytesReadme, if_neg hnotle, hpr]
    rw [hval]
    norm_num
    decide
  refine ⟨hf, hp, by rw [hp]; decide, by rw [hp]; decide, heA, by rw [heA, heR]⟩

end Frontend
